import Mathlib

/-!
Verification of the `metadata_server` repository's validation and
mutation-policy layer against its natural-language specification.

The Python sources are shallowly embedded:
* `validate_israeli_id`, `validate_phone` — `src/metadata_manager/models/user.py`
* `is_valid_israeli_id`, `generate_israeli_id` — `src/tools.py`
* `UserUpdateSerializer.validate` and the CRUD view flow —
  `src/metadata_manager/serializers.py`, `src/metadata_manager/views.py`
Python exceptions are embedded as `Except`; strings are Lean `String`s with
digits restricted to ASCII `'0'`–`'9'`.
-/

/-- Python exception values that the embedded code can raise. -/
inductive PyExc where
  | validationError (msg : String)
  | numberParseException
  | runtimeError (msg : String)
deriving DecidableEq, Repr

/-- Numeric value of a digit character, `int(char)` on `'0'`–`'9'`. -/
def digitVal (c : Char) : Nat := c.toNat - '0'.toNat

/-- Character for a digit value, `str(d)` on `0`–`9`. -/
def digitChar (d : Nat) : Char := Char.ofNat ('0'.toNat + d)

/-- Python `str.isdigit` on a character list (ASCII digits; and Python's
`"".isdigit()` is `False`, hence the non-emptiness conjunct). -/
def pyIsDigitChars (l : List Char) : Bool := !l.isEmpty && l.all Char.isDigit

/-- Python `str.isdigit`. -/
def pyIsDigit (s : String) : Bool := pyIsDigitChars s.data

/-- Python `str.zfill` on a character list: left-pad with `'0'` to `width`,
keeping a leading `'+'`/`'-'` sign in front of the padding. -/
def zfillChars (l : List Char) (width : Nat) : List Char :=
  match l with
  | [] => List.replicate width '0'
  | c :: cs =>
    if c = '+' ∨ c = '-' then
      c :: (List.replicate (width - (cs.length + 1)) '0' ++ cs)
    else
      List.replicate (width - (c :: cs).length) '0' ++ (c :: cs)

/-- Python `str.zfill`. -/
def zfill (s : String) (width : Nat) : String := ⟨zfillChars s.data width⟩

/-- The checksum loop body of `validate_israeli_id` (user.py lines 20–26):
weight 1 at even index, 2 at odd index, subtract 9 from products above 9,
summed from position `idx` on. -/
def weightedSumFrom (idx : Nat) : List Char → Nat
  | [] => 0
  | c :: cs =>
    let multiplied := digitVal c * (if idx % 2 = 0 then 1 else 2)
    (if multiplied > 9 then multiplied - 9 else multiplied) + weightedSumFrom (idx + 1) cs

/-- Embedding of `validate_israeli_id` (user.py lines 8–28): zero-fill to 9,
reject unless the filled string is all digits and the original length is
5–9, then reject unless the weighted checksum is divisible by 10. -/
def validate_israeli_id (value : String) : Except PyExc Unit :=
  if ¬ (pyIsDigit (zfill value 9) = true) ∨ ¬ (5 ≤ value.length ∧ value.length ≤ 9) then
    Except.error (PyExc.validationError "ID must be a string of 5-9 digits")
  else if weightedSumFrom 0 (zfill value 9).data % 10 ≠ 0 then
    Except.error (PyExc.validationError "Invalid Israeli ID checksum")
  else
    Except.ok ()

/-- C1's weighted sum, written from the claim's words: digit times weight
(1 at even 0-based position, 2 at odd), 9 subtracted from any product
exceeding 9, summed left to right from position `idx`. -/
def c1_weighted_sum (idx : Nat) : List Char → Nat
  | [] => 0
  | c :: cs =>
    let product := digitVal c * (if idx % 2 = 0 then 1 else 2)
    (if product > 9 then product - 9 else product) + c1_weighted_sum (idx + 1) cs

/-- C1's padding, written from the claim's words: left-pad with zeros to
exactly 9 digits. -/
def c1_padded (s : String) : List Char :=
  List.replicate (9 - s.length) '0' ++ s.data

/-- C1's acceptance condition, written from the claim's words: purely
digits, length 5–9, and the padded weighted sum divisible by 10. -/
def c1_accepts (s : String) : Prop :=
  s.data.all Char.isDigit = true ∧ 5 ≤ s.length ∧ s.length ≤ 9 ∧
    c1_weighted_sum 0 (c1_padded s) % 10 = 0

theorem c1_weighted_sum_eq (l : List Char) : ∀ idx, c1_weighted_sum idx l = weightedSumFrom idx l := by
  induction l with
  | nil => intro idx; rfl
  | cons c cs ih =>
    intro idx
    simp only [c1_weighted_sum, weightedSumFrom, ih]

theorem string_length_eq_data (s : String) : s.length = s.data.length := rfl

theorem mem_zfillChars {c : Char} {l : List Char} (w : Nat) (h : c ∈ l) :
    c ∈ zfillChars l w := by
  cases l with
  | nil => cases h
  | cons a as =>
    simp only [zfillChars]
    split
    · rcases List.mem_cons.mp h with rfl | h2
      · exact List.mem_cons_self _ _
      · exact List.mem_cons_of_mem _ (List.mem_append_right _ h2)
    · exact List.mem_append_right _ h

theorem zfillChars_of_digits {l : List Char} (w : Nat)
    (h : ∀ c ∈ l, c.isDigit = true) :
    zfillChars l w = List.replicate (w - l.length) '0' ++ l := by
  cases l with
  | nil => simp [zfillChars]
  | cons a as =>
    simp only [zfillChars]
    split
    · rename_i hsign
      have ha := h a (List.mem_cons_self _ _)
      rcases hsign with rfl | rfl <;> simp at ha
    · rfl

theorem all_digits_of_pyIsDigit_zfill {l : List Char}
    (h : pyIsDigitChars (zfillChars l 9) = true) :
    ∀ c ∈ l, c.isDigit = true := by
  intro c hc
  simp only [pyIsDigitChars, Bool.and_eq_true] at h
  exact (List.all_eq_true.mp h.2) c (mem_zfillChars 9 hc)

theorem pyIsDigit_pad_of_digits {l : List Char}
    (hd : ∀ c ∈ l, c.isDigit = true) (hne : l ≠ []) :
    pyIsDigitChars (List.replicate (9 - l.length) '0' ++ l) = true := by
  unfold pyIsDigitChars
  rw [Bool.and_eq_true]
  constructor
  · rw [Bool.not_eq_true']
    simp only [List.isEmpty_eq_false_iff_exists_mem]
    rcases l with _ | ⟨a, as⟩
    · exact absurd rfl hne
    · exact ⟨a, List.mem_append_right _ (List.mem_cons_self _ _)⟩
  · rw [List.all_eq_true]
    intro c hc
    rcases List.mem_append.mp hc with hrep | hmem
    · rw [List.eq_of_mem_replicate hrep]; decide
    · exact hd c hmem

/-- Code-side characterization: `validate_israeli_id` accepts exactly when
the three conditions of its two `if`s hold. -/
theorem validate_israeli_id_ok_iff (value : String) :
    validate_israeli_id value = Except.ok () ↔
      (pyIsDigit (zfill value 9) = true ∧ (5 ≤ value.length ∧ value.length ≤ 9) ∧
        weightedSumFrom 0 (zfill value 9).data % 10 = 0) := by
  unfold validate_israeli_id
  split_ifs with h1 h2
  · constructor
    · intro h; cases h
    · rintro ⟨ha, hb, _⟩
      rcases h1 with h1 | h1
      · exact absurd ha h1
      · exact absurd hb h1
  · constructor
    · intro h; cases h
    · rintro ⟨_, _, h3⟩; exact absurd h3 h2
  · push_neg at h1 h2
    constructor
    · intro _; exact ⟨h1.1, h1.2, h2⟩
    · intro _; rfl

theorem c1_equiv (s : String) : validate_israeli_id s = Except.ok () ↔ c1_accepts s := by
  rw [validate_israeli_id_ok_iff]
  unfold c1_accepts
  constructor
  · rintro ⟨hd, ⟨h5, h9⟩, hsum⟩
    have hall : ∀ c ∈ s.data, c.isDigit = true := all_digits_of_pyIsDigit_zfill hd
    refine ⟨List.all_eq_true.mpr hall, h5, h9, ?_⟩
    rw [c1_weighted_sum_eq]
    unfold c1_padded
    have hz : (zfill s 9).data = List.replicate (9 - s.length) '0' ++ s.data := by
      show zfillChars s.data 9 = _
      rw [zfillChars_of_digits 9 hall, string_length_eq_data]
    rw [← hz]; exact hsum
  · rintro ⟨hall, h5, h9, hsum⟩
    have hall2 : ∀ c ∈ s.data, c.isDigit = true := List.all_eq_true.mp hall
    have hne : s.data ≠ [] := by
      intro h0
      rw [string_length_eq_data, h0] at h5
      simp at h5
    have hz : (zfill s 9).data = List.replicate (9 - s.length) '0' ++ s.data := by
      show zfillChars s.data 9 = _
      rw [zfillChars_of_digits 9 hall2, string_length_eq_data]
    refine ⟨?_, ⟨h5, h9⟩, ?_⟩
    · show pyIsDigitChars (zfill s 9).data = true
      rw [hz, string_length_eq_data]
      exact pyIsDigit_pad_of_digits hall2 hne
    · rw [c1_weighted_sum_eq] at hsum
      unfold c1_padded at hsum
      rw [hz]
      exact hsum

/-- C1: the server-side ID validator accepts a string iff it is purely
digits, of length 5–9, and the zero-padded 9-digit weighted checksum
(weight 1 at even 0-based index, 2 at odd, 9 subtracted from products
above 9) is divisible by 10; "123456782" is accepted while "123456780"
and "123789456" are rejected. -/
theorem C1_id_validator :
    (∀ s, validate_israeli_id s = Except.ok () ↔ c1_accepts s) ∧
    validate_israeli_id "123456782" = Except.ok () ∧
    validate_israeli_id "123456780" =
      Except.error (PyExc.validationError "Invalid Israeli ID checksum") ∧
    validate_israeli_id "123789456" =
      Except.error (PyExc.validationError "Invalid Israeli ID checksum") :=
  ⟨c1_equiv, rfl, rfl, rfl⟩

/-- Boolean view of `validate_israeli_id` (true iff it raises nothing). -/
def idOk (s : String) : Bool :=
  match validate_israeli_id s with
  | Except.ok _ => true
  | Except.error _ => false

theorem idOk_eq_true_iff (s : String) :
    idOk s = true ↔ validate_israeli_id s = Except.ok () := by
  unfold idOk
  cases h : validate_israeli_id s with
  | ok u => cases u; simp
  | error e => simp

/-- The checksum loop of `is_valid_israeli_id` (tools.py lines 46–53):
`n` is `len(id_str)`, the weight alternates starting from the rightmost
digit when `from_right` is true, from the leftmost otherwise. -/
def tools_total (n : Nat) (from_right : Bool) (idx : Nat) : List Char → Nat
  | [] => 0
  | c :: cs =>
    let pos := if from_right then n - 1 - idx else idx
    let weight := if pos % 2 = 0 then 1 else 2
    let product := digitVal c * weight
    (if product < 10 then product else product - 9) + tools_total n from_right (idx + 1) cs

/-- Embedding of `is_valid_israeli_id` (tools.py lines 30–54): require a
9-digit string, then check the alternating-weight checksum. -/
def is_valid_israeli_id (id_str : String) (from_right : Bool) : Bool :=
  if ¬ (pyIsDigit id_str = true ∧ id_str.length = 9) then false
  else decide (tools_total id_str.length from_right 0 id_str.data % 10 = 0)

/-- Embedding of `generate_israeli_id` (tools.py lines 57–79): the 8
random digits are an explicit argument; try check digits 0–9 and return
the first valid candidate; `none` models the `RuntimeError` branch. -/
def generate_israeli_id (first8 : List Nat) (from_right : Bool) : Option String :=
  List.findSome?
    (fun check =>
      if is_valid_israeli_id ⟨(first8 ++ [check]).map digitChar⟩ from_right = true then
        some (String.mk ((first8 ++ [check]).map digitChar))
      else none)
    (List.range 10)

theorem tools_adjust_eq (p : Nat) :
    (if p < 10 then p else p - 9) = (if p > 9 then p - 9 else p) := by
  split_ifs <;> omega

theorem tools_total_append (n : Nat) (fr : Bool) (ys : List Char) :
    ∀ (xs : List Char) (idx : Nat),
      tools_total n fr idx (xs ++ ys) =
        tools_total n fr idx xs + tools_total n fr (idx + xs.length) ys := by
  intro xs
  induction xs with
  | nil => intro idx; simp [tools_total]
  | cons c cs ih =>
    intro idx
    simp only [List.cons_append, tools_total, List.append_eq, List.length_cons, ih (idx + 1)]
    have h2 : tools_total n fr (idx + (cs.length + 1)) ys
        = tools_total n fr (idx + 1 + cs.length) ys := by
      have h3 : idx + (cs.length + 1) = idx + 1 + cs.length := by omega
      rw [h3]
    rw [h2]
    omega

theorem tools_total_eq_weightedSum (fr : Bool) :
    ∀ (l : List Char) (idx : Nat), idx + l.length = 9 →
      tools_total 9 fr idx l = weightedSumFrom idx l := by
  intro l
  induction l with
  | nil => intro idx _; rfl
  | cons c cs ih =>
    intro idx hlen
    simp only [List.length_cons] at hlen
    have hidx : idx ≤ 8 := by omega
    simp only [tools_total, weightedSumFrom]
    have hpos : (if fr then 9 - 1 - idx else idx) % 2 = idx % 2 := by
      cases fr
      · simp
      · simp
        omega
    rw [hpos, tools_adjust_eq, ih (idx + 1) (by omega)]

theorem pyIsDigit_of_digits {s : String} (hne : s.data ≠ [])
    (hd : ∀ c ∈ s.data, c.isDigit = true) : pyIsDigit s = true := by
  show pyIsDigitChars s.data = true
  unfold pyIsDigitChars
  rw [Bool.and_eq_true]
  refine ⟨?_, List.all_eq_true.mpr hd⟩
  rw [Bool.not_eq_true']
  simpa [List.isEmpty_iff] using hne

theorem zfillChars_of_length_ge {l : List Char} {w : Nat} (h : w ≤ l.length) :
    zfillChars l w = l := by
  cases l with
  | nil =>
    simp only [List.length_nil, Nat.le_zero] at h
    simp [zfillChars, h]
  | cons a as =>
    simp only [List.length_cons] at h
    simp only [zfillChars]
    split
    · rw [Nat.sub_eq_zero_of_le h]
      simp
    · rw [Nat.sub_eq_zero_of_le (by simpa using h)]
      simp

theorem is_valid_israeli_id_eq_of_length9 (s : String) (fr : Bool) (h9 : s.length = 9) :
    is_valid_israeli_id s fr =
      (pyIsDigit s && decide (weightedSumFrom 0 s.data % 10 = 0)) := by
  unfold is_valid_israeli_id
  rw [h9]
  by_cases hd : pyIsDigit s = true
  · rw [if_neg (by simp [hd])]
    rw [tools_total_eq_weightedSum fr s.data 0
      (by simp only [Nat.zero_add, ← string_length_eq_data]; exact h9)]
    simp [hd]
  · rw [if_pos (by simp [hd])]
    simp [Bool.not_eq_true] at hd
    simp [hd]

theorem zfill_eq_self_of_length9 (s : String) (h9 : s.length = 9) : zfill s 9 = s := by
  show String.mk (zfillChars s.data 9) = s
  rw [zfillChars_of_length_ge (by rw [← string_length_eq_data, h9])]

theorem validate_ok_iff_of_length9 (s : String) (h9 : s.length = 9) :
    validate_israeli_id s = Except.ok () ↔
      (pyIsDigit s = true ∧ weightedSumFrom 0 s.data % 10 = 0) := by
  rw [validate_israeli_id_ok_iff, zfill_eq_self_of_length9 s h9, h9]
  constructor
  · rintro ⟨h1, _, h3⟩; exact ⟨h1, h3⟩
  · rintro ⟨h1, h3⟩; exact ⟨h1, ⟨by omega, by omega⟩, h3⟩

theorem idOk_eq_of_length9 (s : String) (h9 : s.length = 9) :
    idOk s = (pyIsDigit s && decide (weightedSumFrom 0 s.data % 10 = 0)) := by
  rw [Bool.eq_iff_iff, idOk_eq_true_iff, validate_ok_iff_of_length9 s h9]
  simp [Bool.and_eq_true, decide_eq_true_iff]

/-- C7: with alternating weights applied from the right or from the left,
the test-support validator `is_valid_israeli_id` gives the same verdict on
every 9-character string, and on those strings its verdict coincides with
acceptance by the server-side `validate_israeli_id`; the two validators can
disagree only on purely-digit inputs of length 5–8, all of which
`is_valid_israeli_id` rejects outright. -/
theorem C7_checksum_conventions_coincide :
    (∀ s : String, s.length = 9 →
      is_valid_israeli_id s true = is_valid_israeli_id s false ∧
        (is_valid_israeli_id s true = true ↔ validate_israeli_id s = Except.ok ())) ∧
    (∀ (s : String) (b : Bool), is_valid_israeli_id s b ≠ idOk s →
      pyIsDigit s = true ∧ 5 ≤ s.length ∧ s.length ≤ 8) ∧
    (∀ (s : String) (b : Bool), s.length ≠ 9 → is_valid_israeli_id s b = false) := by
  have hlen : ∀ (s : String) (b : Bool), s.length ≠ 9 → is_valid_israeli_id s b = false := by
    intro s b hne
    unfold is_valid_israeli_id
    rw [if_pos (fun hand => hne hand.2)]
  refine ⟨?_, ?_, hlen⟩
  · intro s h9
    rw [is_valid_israeli_id_eq_of_length9 s true h9, is_valid_israeli_id_eq_of_length9 s false h9]
    refine ⟨rfl, ?_⟩
    rw [validate_ok_iff_of_length9 s h9]
    simp [Bool.and_eq_true, decide_eq_true_iff]
  · intro s b hdiff
    by_cases h9 : s.length = 9
    · exfalso
      apply hdiff
      rw [is_valid_israeli_id_eq_of_length9 s b h9, idOk_eq_of_length9 s h9]
    · have hfalse := hlen s b h9
      have hok : idOk s = true := by
        cases hi : idOk s with
        | true => rfl
        | false => exact absurd (hfalse.trans hi.symm) hdiff
      rw [idOk_eq_true_iff, validate_israeli_id_ok_iff] at hok
      obtain ⟨hd, ⟨h5, h9le⟩, _⟩ := hok
      have hall := all_digits_of_pyIsDigit_zfill hd
      have hne : s.data ≠ [] := by
        intro h0
        rw [string_length_eq_data, h0] at h5
        simp at h5
      exact ⟨pyIsDigit_of_digits hne hall, h5, by omega⟩

/-- C7 witness: the two weighting conventions agree on the concrete
9-digit string "123456782", matching the server-side verdict. -/
theorem C7_checksum_conventions_coincide_witness :
    is_valid_israeli_id "123456782" true = is_valid_israeli_id "123456782" false ∧
      (is_valid_israeli_id "123456782" true = true ↔
        validate_israeli_id "123456782" = Except.ok ()) :=
  C7_checksum_conventions_coincide.1 "123456782" rfl

theorem weightedSumFrom_append (ys : List Char) :
    ∀ (xs : List Char) (idx : Nat),
      weightedSumFrom idx (xs ++ ys) =
        weightedSumFrom idx xs + weightedSumFrom (idx + xs.length) ys := by
  intro xs
  induction xs with
  | nil => intro idx; simp [weightedSumFrom]
  | cons c cs ih =>
    intro idx
    simp only [List.cons_append, weightedSumFrom, List.append_eq, List.length_cons, ih (idx + 1)]
    have h2 : weightedSumFrom (idx + (cs.length + 1)) ys
        = weightedSumFrom (idx + 1 + cs.length) ys := by
      have h3 : idx + (cs.length + 1) = idx + 1 + cs.length := by omega
      rw [h3]
    rw [h2]
    omega

theorem digitChar_isDigit {d : Nat} (h : d ≤ 9) : (digitChar d).isDigit = true := by
  interval_cases d <;> decide

theorem digitVal_digitChar {d : Nat} (h : d ≤ 9) : digitVal (digitChar d) = d := by
  interval_cases d <;> decide

theorem exists_check_digit (first8 : List Nat) (fr : Bool)
    (hlen : first8.length = 8) (hd : ∀ d ∈ first8, d ≤ 9) :
    ∃ c, c ≤ 9 ∧
      is_valid_israeli_id (String.mk ((first8 ++ [c]).map digitChar)) fr = true := by
  refine ⟨(10 - weightedSumFrom 0 (first8.map digitChar) % 10) % 10, by omega, ?_⟩
  set A := weightedSumFrom 0 (first8.map digitChar) with hA
  set c := (10 - A % 10) % 10 with hc
  have hc9 : c ≤ 9 := by omega
  have hlen9 : (String.mk ((first8 ++ [c]).map digitChar)).length = 9 := by
    rw [string_length_eq_data]
    show ((first8 ++ [c]).map digitChar).length = 9
    rw [List.length_map, List.length_append, hlen]
    simp
  have halldig : ∀ ch ∈ (first8 ++ [c]).map digitChar, ch.isDigit = true := by
    intro ch hch
    obtain ⟨d, hdmem, hdc⟩ := List.mem_map.mp hch
    rcases List.mem_append.mp hdmem with h8 | h1
    · rw [← hdc]; exact digitChar_isDigit (hd d h8)
    · rw [← hdc, List.mem_singleton.mp h1]; exact digitChar_isDigit hc9
  have hne : (String.mk ((first8 ++ [c]).map digitChar)).data ≠ [] := by
    intro h0
    have := congrArg List.length h0
    rw [string_length_eq_data] at hlen9
    rw [hlen9] at this
    cases this
  have hone : weightedSumFrom 8 [digitChar c] = c := by
    simp only [weightedSumFrom, digitVal_digitChar hc9]
    norm_num
    omega
  have hsum : weightedSumFrom 0 ((first8 ++ [c]).map digitChar) % 10 = 0 := by
    rw [List.map_append, weightedSumFrom_append, List.length_map, hlen]
    simp only [List.map_cons, List.map_nil]
    rw [hone]
    omega
  rw [is_valid_israeli_id_eq_of_length9 _ fr hlen9]
  rw [Bool.and_eq_true]
  exact ⟨pyIsDigit_of_digits hne halldig, decide_eq_true_iff.mpr hsum⟩

theorem generate_israeli_id_valid (first8 : List Nat) (fr : Bool)
    (hlen : first8.length = 8) (hd : ∀ d ∈ first8, d ≤ 9) :
    ∃ s, generate_israeli_id first8 fr = some s ∧ s.length = 9 ∧
      is_valid_israeli_id s fr = true := by
  obtain ⟨c, hc9, hvalid⟩ := exists_check_digit first8 fr hlen hd
  cases hg : generate_israeli_id first8 fr with
  | none =>
    exfalso
    unfold generate_israeli_id at hg
    rw [List.findSome?_eq_none_iff] at hg
    have h2 := hg c (List.mem_range.mpr (by omega))
    rw [if_pos hvalid] at h2
    cases h2
  | some z =>
    have hg2 := hg
    unfold generate_israeli_id at hg2
    obtain ⟨a, _, hfa⟩ := List.exists_of_findSome?_eq_some hg2
    have hz : z = String.mk ((first8 ++ [a]).map digitChar) ∧
        is_valid_israeli_id z fr = true := by
      by_cases hv : is_valid_israeli_id (String.mk ((first8 ++ [a]).map digitChar)) fr = true
      · rw [if_pos hv] at hfa
        injection hfa with h
        exact ⟨h.symm, h ▸ hv⟩
      · rw [if_neg hv] at hfa
        cases hfa
    refine ⟨z, rfl, ?_, hz.2⟩
    rw [hz.1, string_length_eq_data]
    show ((first8 ++ [a]).map digitChar).length = 9
    rw [List.length_map, List.length_append, hlen]
    simp

/-- C4: for every 8 leading digits some check digit 0–9 completes a string
passing `is_valid_israeli_id`, so `generate_israeli_id` never reaches its
`RuntimeError` branch (modelled as `none`) and always returns a 9-character
string accepted by the validator, under either weighting convention. -/
theorem C4_generate_always_valid :
    ∀ (first8 : List Nat) (fr : Bool), first8.length = 8 → (∀ d ∈ first8, d ≤ 9) →
      (∃ c, c ≤ 9 ∧
        is_valid_israeli_id (String.mk ((first8 ++ [c]).map digitChar)) fr = true) ∧
      generate_israeli_id first8 fr ≠ none ∧
      ∃ s, generate_israeli_id first8 fr = some s ∧ s.length = 9 ∧
        is_valid_israeli_id s fr = true := by
  intro first8 fr h8 hd
  refine ⟨exists_check_digit first8 fr h8 hd, ?_, generate_israeli_id_valid first8 fr h8 hd⟩
  obtain ⟨s, hs, _, _⟩ := generate_israeli_id_valid first8 fr h8 hd
  rw [hs]
  simp

/-- C4 witness: the generator succeeds on the concrete leading digits
1,2,3,4,5,6,7,8. -/
theorem C4_generate_always_valid_witness :
    (∃ c, c ≤ 9 ∧
      is_valid_israeli_id (String.mk (([1,2,3,4,5,6,7,8] ++ [c]).map digitChar)) true = true) ∧
    generate_israeli_id [1,2,3,4,5,6,7,8] true ≠ none ∧
    ∃ s, generate_israeli_id [1,2,3,4,5,6,7,8] true = some s ∧ s.length = 9 ∧
      is_valid_israeli_id s true = true :=
  C4_generate_always_valid [1,2,3,4,5,6,7,8] true rfl (by decide)

/-- Interface of the external `phonenumbers` library as used by
`validate_phone`: `parse` has no default region and `none` models a raised
`NumberParseException`; `α` is the library's parsed-number type. -/
structure PhoneLib (α : Type) where
  parse : String → Option α
  is_possible_number : α → Bool
  is_valid_number : α → Bool

/-- The `try` body of `validate_phone` (user.py lines 40–43): parse, then
raise `ValidationError` when the number is not possible or not valid. -/
def validate_phone_try {α : Type} (lib : PhoneLib α) (value : String) : Except PyExc Unit :=
  match lib.parse value with
  | none => Except.error PyExc.numberParseException
  | some phone =>
    if ¬ (lib.is_possible_number phone = true) ∨ ¬ (lib.is_valid_number phone = true) then
      Except.error (PyExc.validationError "Phone number is not valid.")
    else Except.ok ()

/-- Embedding of `validate_phone` (user.py lines 31–45): any exception
escaping the `try` body — the `NumberParseException` or the inner
`ValidationError` — is caught and replaced by a `ValidationError`. -/
def validate_phone {α : Type} (lib : PhoneLib α) (value : String) : Except PyExc Unit :=
  match validate_phone_try lib value with
  | Except.ok _ => Except.ok ()
  | Except.error _ =>
    Except.error
      (PyExc.validationError "Phone number must be in valid international format (e.g., +972...)")

/-- Modelled from the spec: the external `phonenumbers` library is not part
of this repository. Per §4.2, parsing has no default region, so only a
`+`-and-country-code string parses; per §8, "+972501234567" is possible
and valid while "0501234567" and "abcdefg" fail to parse. The model parses
`+`-led all-digit strings of plausible length and marks 13-character
`+972` numbers possible and valid. -/
def phonenumbersModel : PhoneLib String :=
  ⟨fun s =>
      if s.data.head? = some '+' ∧ (s.data.drop 1).all Char.isDigit = true ∧
          8 ≤ s.length ∧ s.length ≤ 17 then some s else none,
   fun s => decide (8 ≤ s.length ∧ s.length ≤ 17),
   fun s => decide (s.data.take 4 = ['+', '9', '7', '2'] ∧ s.length = 13)⟩

/-- Boolean view of `validate_phone` (true iff it raises nothing). -/
def phoneOk {α : Type} (lib : PhoneLib α) (s : String) : Bool :=
  match validate_phone lib s with
  | Except.ok _ => true
  | Except.error _ => false

theorem validate_phone_try_ok_iff {α : Type} (lib : PhoneLib α) (v : String) :
    validate_phone_try lib v = Except.ok () ↔
      ∃ p, lib.parse v = some p ∧ lib.is_possible_number p = true ∧
        lib.is_valid_number p = true := by
  unfold validate_phone_try
  cases hp : lib.parse v with
  | none => simp
  | some p =>
    dsimp only
    split_ifs with h
    · constructor
      · intro h2; cases h2
      · rintro ⟨q, hq, h1, h2⟩
        injection hq with hpq
        subst hpq
        rcases h with h | h
        · exact absurd h1 h
        · exact absurd h2 h
    · push_neg at h
      constructor
      · intro _; exact ⟨p, rfl, h.1, h.2⟩
      · intro _; rfl

theorem validate_phone_ok_iff {α : Type} (lib : PhoneLib α) (v : String) :
    validate_phone lib v = Except.ok () ↔
      ∃ p, lib.parse v = some p ∧ lib.is_possible_number p = true ∧
        lib.is_valid_number p = true := by
  rw [← validate_phone_try_ok_iff]
  unfold validate_phone
  cases ht : validate_phone_try lib v with
  | ok u => cases u; simp
  | error e => simp

/-- C5: for any behaviour of the phone-number library, `validate_phone`
accepts a string iff parsing succeeds and the parsed number is both
possible and valid; every failure surfaces as the single `ValidationError`
(a `NumberParseException` never propagates); on the spec-modelled library,
"+972501234567" is accepted while "0501234567" and "abcdefg" are
rejected. -/
theorem C5_phone_validator :
    (∀ (α : Type) (lib : PhoneLib α) (v : String),
      (validate_phone lib v = Except.ok () ↔
        ∃ p, lib.parse v = some p ∧ lib.is_possible_number p = true ∧
          lib.is_valid_number p = true) ∧
      (validate_phone lib v = Except.ok () ∨
        validate_phone lib v = Except.error (PyExc.validationError
          "Phone number must be in valid international format (e.g., +972...)"))) ∧
    validate_phone phonenumbersModel "+972501234567" = Except.ok () ∧
    validate_phone phonenumbersModel "0501234567" = Except.error (PyExc.validationError
      "Phone number must be in valid international format (e.g., +972...)") ∧
    validate_phone phonenumbersModel "abcdefg" = Except.error (PyExc.validationError
      "Phone number must be in valid international format (e.g., +972...)") := by
  refine ⟨fun α lib v => ⟨validate_phone_ok_iff lib v, ?_⟩, rfl, rfl, rfl⟩
  unfold validate_phone
  cases ht : validate_phone_try lib v with
  | ok u => cases u; exact Or.inl rfl
  | error e => exact Or.inr rfl

/-- A stored user row (the `User` model, user.py lines 48–85). -/
structure UserRecord where
  id : String
  name : String
  phone : String
  address : String
deriving DecidableEq, Repr

/-- The user table: rows in insertion order, keyed by `id`. -/
abbrev Store := List UserRecord

/-- Errors the HTTP layer reports: `validation` → 400, `conflict` → 409,
`notFound` → 404 (spec §7 taxonomy). -/
inductive ApiError where
  | validation
  | conflict
  | notFound
deriving DecidableEq, Repr

/-- Primary-key lookup in the store. -/
def findById (st : Store) (k : String) : Option UserRecord :=
  st.find? (fun r => r.id == k)

/-- `name` constraint: required, max 100 chars (user.py lines 73–76, DRF
required/allow_blank defaults per spec §3). -/
def nameOk (s : String) : Bool := !s.isEmpty && decide (s.length ≤ 100)

/-- `address` constraint: required, max 255 chars (user.py lines 82–85). -/
def addressOk (s : String) : Bool := !s.isEmpty && decide (s.length ≤ 255)

/-- `phone` constraint: max 20 chars and `validate_phone` (user.py 77–81). -/
def phoneFieldOk {α : Type} (lib : PhoneLib α) (s : String) : Bool :=
  decide (s.length ≤ 20) && phoneOk lib s

/-- `id` constraint: max 9 chars and `validate_israeli_id` (user.py 66–72). -/
def idFieldOk (s : String) : Bool := decide (s.length ≤ 9) && idOk s

/-- All field validators of a full record. -/
def recordOk {α : Type} (lib : PhoneLib α) (r : UserRecord) : Bool :=
  idFieldOk r.id && nameOk r.name && phoneFieldOk lib r.phone && addressOk r.address

/-- Modelled from the spec (§4.3 Create): the DRF create flow is framework
code, not in this repository. Field validation (embedded above) first; a
duplicate id is the spec's `ConflictError`; otherwise the row is appended. -/
def create {α : Type} (lib : PhoneLib α) (st : Store) (body : UserRecord) :
    Except ApiError Store :=
  if ¬ (recordOk lib body = true) then Except.error ApiError.validation
  else if (findById st body.id).isSome then Except.error ApiError.conflict
  else Except.ok (st ++ [body])

/-- A PUT/PATCH request body: each key optionally present. -/
structure Payload where
  id : Option String
  name : Option String
  phone : Option String
  address : Option String
deriving DecidableEq, Repr

/-- Embedding of `UserUpdateSerializer.validate` (serializers.py lines
29–47) for the update flows (instance present): a payload `id` differing
from the instance's id raises `ValidationError`; an equal `id` is allowed. -/
def updateIdAllowed (body : Payload) (inst : UserRecord) : Bool :=
  match body.id with
  | none => true
  | some i => i == inst.id

/-- Apply a PATCH body: supplied fields replace the row's; `id` is
read-only (serializers.py line 27), so it is never taken from the body. -/
def applyPatch (r : UserRecord) (body : Payload) : UserRecord :=
  UserRecord.mk r.id (body.name.getD r.name) (body.phone.getD r.phone)
    (body.address.getD r.address)

/-- Modelled from the spec (§4.3 Replace) around the embedded serializer
logic: 404 when the id is absent; 400 when a required field (name, phone,
address) is missing or invalid, or when the payload id differs from the
stored id (`updateIdAllowed`); on success name/phone/address are
overwritten and the read-only `id` kept. -/
def replace {α : Type} (lib : PhoneLib α) (st : Store) (k : String) (body : Payload) :
    Except ApiError Store :=
  match findById st k with
  | none => Except.error ApiError.notFound
  | some inst =>
    if ¬ (body.name.isSome = true ∧ body.phone.isSome = true ∧ body.address.isSome = true) then
      Except.error ApiError.validation
    else if ¬ (body.name.all nameOk = true ∧ body.phone.all (phoneFieldOk lib) = true ∧
        body.address.all addressOk = true) then
      Except.error ApiError.validation
    else if ¬ (updateIdAllowed body inst = true) then
      Except.error ApiError.validation
    else
      Except.ok (st.map (fun r => if r.id == k then applyPatch r body else r))

/-- Modelled from the spec (§4.3 PartialUpdate) around the embedded
serializer logic: 404 when the id is absent; 400 when a supplied field is
invalid or when the payload id differs from the stored id; on success
exactly the supplied fields are applied. -/
def partial_update {α : Type} (lib : PhoneLib α) (st : Store) (k : String) (body : Payload) :
    Except ApiError Store :=
  match findById st k with
  | none => Except.error ApiError.notFound
  | some inst =>
    if ¬ (body.name.all nameOk = true ∧ body.phone.all (phoneFieldOk lib) = true ∧
        body.address.all addressOk = true) then
      Except.error ApiError.validation
    else if ¬ (updateIdAllowed body inst = true) then
      Except.error ApiError.validation
    else
      Except.ok (st.map (fun r => if r.id == k then applyPatch r body else r))

/-- Modelled from the spec (§4.3 Delete): remove the row, 404 if absent. -/
def destroy (st : Store) (k : String) : Except ApiError Store :=
  if (findById st k).isSome then Except.ok (st.filter (fun r => !(r.id == k)))
  else Except.error ApiError.notFound

/-- Modelled from the spec (§4.3 Get): return the row, 404 if absent. -/
def retrieve (st : Store) (k : String) : Except ApiError UserRecord :=
  match findById st k with
  | some r => Except.ok r
  | none => Except.error ApiError.notFound

/-- The store contents after an operation: unchanged when it errored. -/
def stateAfter (st : Store) (res : Except ApiError Store) : Store :=
  match res with
  | Except.ok st2 => st2
  | Except.error _ => st

/-- No two rows share an id (primary-key uniqueness, spec §3). -/
def UniqueIds (st : Store) : Prop := (st.map (fun r => r.id)).Nodup

theorem findById_eq_some {st : Store} {k : String} {r : UserRecord}
    (h : findById st k = some r) : r.id = k ∧ r ∈ st := by
  unfold findById at h
  have hp := List.find?_some h
  exact ⟨beq_iff_eq.mp hp, List.mem_of_find?_eq_some h⟩

theorem findById_eq_none {st : Store} {k : String} :
    findById st k = none ↔ ∀ r ∈ st, r.id ≠ k := by
  unfold findById
  rw [List.find?_eq_none]
  constructor
  · intro h r hr he
    exact (h r hr) (by rw [he]; exact beq_self_eq_true k)
  · intro h r hr hbeq
    exact (h r hr) (beq_iff_eq.mp hbeq)

theorem findById_map_patch (st : Store) (k j : String) (body : Payload) :
    findById (st.map (fun r => if r.id == k then applyPatch r body else r)) j
      = (findById st j).map (fun r => if r.id == k then applyPatch r body else r) := by
  unfold findById
  rw [List.find?_map]
  have hp : ((fun r : UserRecord => r.id == j) ∘ fun r => if r.id == k then applyPatch r body else r)
      = (fun r : UserRecord => r.id == j) := by
    funext r
    show ((if r.id == k then applyPatch r body else r).id == j) = (r.id == j)
    split
    · rfl
    · rfl
  rw [hp]

theorem map_patch_ids (st : Store) (k : String) (body : Payload) :
    (st.map (fun r => if r.id == k then applyPatch r body else r)).map (fun r => r.id)
      = st.map (fun r => r.id) := by
  rw [List.map_map]
  congr 1
  funext r
  show (if r.id == k then applyPatch r body else r).id = r.id
  split
  · rfl
  · rfl


theorem updateIdAllowed_some {body : Payload} {inst : UserRecord} {i : String}
    (h : body.id = some i) : updateIdAllowed body inst = (i == inst.id) := by
  unfold updateIdAllowed
  rw [h]

theorem partial_update_found {α : Type} (lib : PhoneLib α) (st : Store) (k : String)
    (body : Payload) (inst : UserRecord) (hfound : findById st k = some inst) :
    partial_update lib st k body =
      if ¬ (body.name.all nameOk = true ∧ body.phone.all (phoneFieldOk lib) = true ∧
          body.address.all addressOk = true) then
        Except.error ApiError.validation
      else if ¬ (updateIdAllowed body inst = true) then
        Except.error ApiError.validation
      else
        Except.ok (st.map (fun r => if r.id == k then applyPatch r body else r)) := by
  unfold partial_update
  rw [hfound]

theorem replace_found {α : Type} (lib : PhoneLib α) (st : Store) (k : String)
    (body : Payload) (inst : UserRecord) (hfound : findById st k = some inst) :
    replace lib st k body =
      if ¬ (body.name.isSome = true ∧ body.phone.isSome = true ∧
          body.address.isSome = true) then
        Except.error ApiError.validation
      else if ¬ (body.name.all nameOk = true ∧ body.phone.all (phoneFieldOk lib) = true ∧
          body.address.all addressOk = true) then
        Except.error ApiError.validation
      else if ¬ (updateIdAllowed body inst = true) then
        Except.error ApiError.validation
      else
        Except.ok (st.map (fun r => if r.id == k then applyPatch r body else r)) := by
  unfold replace
  rw [hfound]

theorem partial_update_ok_eq {α : Type} {lib : PhoneLib α} {st st2 : Store} {k : String}
    {body : Payload} (h : partial_update lib st k body = Except.ok st2) :
    st2 = st.map (fun r => if r.id == k then applyPatch r body else r) := by
  unfold partial_update at h
  split at h
  · cases h
  · split at h
    · cases h
    · split at h
      · cases h
      · injection h with h3
        exact h3.symm

theorem replace_ok_eq {α : Type} {lib : PhoneLib α} {st st2 : Store} {k : String}
    {body : Payload} (h : replace lib st k body = Except.ok st2) :
    st2 = st.map (fun r => if r.id == k then applyPatch r body else r) := by
  unfold replace at h
  split at h
  · cases h
  · split at h
    · cases h
    · split at h
      · cases h
      · split at h
        · cases h
        · injection h with h3
          exact h3.symm

theorem destroy_ok_eq {st st2 : Store} {k : String} (h : destroy st k = Except.ok st2) :
    st2 = st.filter (fun r => !(r.id == k)) := by
  unfold destroy at h
  split_ifs at h with h1
  injection h with h3
  exact h3.symm

/-- A concrete valid record used in witnesses. -/
def sampleUser : UserRecord := UserRecord.mk "123456782" "A" "+972501234567" "X"

/-- C2 counterexample: on the embedded code, a PartialUpdate body whose
`id` equals the stored record's id is accepted and leaves the record
unchanged — it is not rejected with `ValidationError` as the claim states
(serializers.py lines 44–46 explicitly allow the equal id). -/
theorem C2_counterexample :
    partial_update phonenumbersModel
      [UserRecord.mk "123456782" "A" "+972501234567" "X"] "123456782"
      (Payload.mk (some "123456782") none none none)
      = Except.ok [UserRecord.mk "123456782" "A" "+972501234567" "X"] := rfl

/-- C2 (amended): a PartialUpdate payload containing an `id` key fails
with `ValidationError` — leaving the store unchanged — exactly when its
value differs from the record's current id; an `id` equal to the current
id passes the immutability check, and with no other supplied fields the
update succeeds and changes nothing. -/
theorem C2_patch_id_immutability :
    ∀ (α : Type) (lib : PhoneLib α) (st : Store) (k i : String) (body : Payload)
      (inst : UserRecord),
      findById st k = some inst → body.id = some i →
        (i ≠ inst.id →
          partial_update lib st k body = Except.error ApiError.validation ∧
          stateAfter st (partial_update lib st k body) = st) ∧
        (i = inst.id → body.name = none → body.phone = none → body.address = none →
          partial_update lib st k body = Except.ok st) := by
  intro α lib st k i body inst hfound hid
  constructor
  · intro hne
    have herr : partial_update lib st k body = Except.error ApiError.validation := by
      rw [partial_update_found lib st k body inst hfound]
      split_ifs with h1 h2
      · exfalso
        rw [updateIdAllowed_some hid] at h2
        exact hne (beq_iff_eq.mp h2)
      · rfl
      · rfl
    exact ⟨herr, by rw [herr]; rfl⟩
  · intro heq hn hp ha
    have hmap : st.map (fun r => if r.id == k then applyPatch r body else r) = st := by
      have hfun : (fun r : UserRecord => if r.id == k then applyPatch r body else r)
          = fun r => r := by
        funext r
        split
        · show applyPatch r body = r
          unfold applyPatch
          rw [hn, hp, ha]
          rfl
        · rfl
      rw [hfun, List.map_id']
    rw [partial_update_found lib st k body inst hfound,
      if_neg (not_not_intro ⟨by rw [hn]; rfl, by rw [hp]; rfl, by rw [ha]; rfl⟩),
      if_neg (not_not_intro
        (by rw [updateIdAllowed_some hid, heq]; exact beq_self_eq_true inst.id)),
      hmap]

/-- C2 witness: a PATCH body with a different id on a concrete store is
rejected with `ValidationError` and the store is unchanged. -/
theorem C2_patch_id_immutability_witness :
    partial_update phonenumbersModel [sampleUser] "123456782"
      (Payload.mk (some "999999990") none none none) = Except.error ApiError.validation ∧
    stateAfter [sampleUser] (partial_update phonenumbersModel [sampleUser] "123456782"
      (Payload.mk (some "999999990") none none none)) = [sampleUser] :=
  (C2_patch_id_immutability String phonenumbersModel [sampleUser] "123456782" "999999990"
    (Payload.mk (some "999999990") none none none) sampleUser rfl rfl).1 (by decide)

/-- C3: a Replace body whose `id` differs from the path id fails with
`ValidationError` leaving the store unchanged; a body with no `id` key (or
an `id` equal to the path id) and valid required fields succeeds,
overwrites name/phone/address with the body's values, and keeps the stored
id equal to the path id. -/
theorem C3_put_id_immutability :
    (∀ (α : Type) (lib : PhoneLib α) (st : Store) (k i : String) (body : Payload)
      (inst : UserRecord),
      findById st k = some inst → body.id = some i → i ≠ k →
        replace lib st k body = Except.error ApiError.validation ∧
        stateAfter st (replace lib st k body) = st) ∧
    (∀ (α : Type) (lib : PhoneLib α) (st : Store) (k : String) (body : Payload)
      (inst : UserRecord) (nm ph ad : String),
      findById st k = some inst → (body.id = none ∨ body.id = some k) →
      body.name = some nm → body.phone = some ph → body.address = some ad →
      nameOk nm = true → phoneFieldOk lib ph = true → addressOk ad = true →
        replace lib st k body
          = Except.ok (st.map (fun r => if r.id == k then applyPatch r body else r)) ∧
        findById (st.map (fun r => if r.id == k then applyPatch r body else r)) k
          = some (UserRecord.mk k nm ph ad)) := by
  constructor
  · intro α lib st k i body inst hfound hid hne
    have herr : replace lib st k body = Except.error ApiError.validation := by
      rw [replace_found lib st k body inst hfound]
      split_ifs with h1 h2 h3
      · exfalso
        rw [updateIdAllowed_some hid] at h3
        exact hne ((beq_iff_eq.mp h3).trans (findById_eq_some hfound).1)
      · rfl
      · rfl
      · rfl
    exact ⟨herr, by rw [herr]; rfl⟩
  · intro α lib st k body inst nm ph ad hfound hidopt hn hp ha hnm hph had
    have hbeq : (inst.id == k) = true := beq_iff_eq.mpr (findById_eq_some hfound).1
    have hupd : updateIdAllowed body inst = true := by
      rcases hidopt with h0 | h0
      · unfold updateIdAllowed
        rw [h0]
      · rw [updateIdAllowed_some h0, (findById_eq_some hfound).1]
        exact beq_self_eq_true k
    constructor
    · rw [replace_found lib st k body inst hfound,
        if_neg (not_not_intro ⟨by rw [hn]; rfl, by rw [hp]; rfl, by rw [ha]; rfl⟩),
        if_neg (not_not_intro
          ⟨by rw [hn]; exact hnm, by rw [hp]; exact hph, by rw [ha]; exact had⟩),
        if_neg (not_not_intro hupd)]
    · rw [findById_map_patch, hfound, Option.map_some', if_pos hbeq]
      unfold applyPatch
      rw [hn, hp, ha, (findById_eq_some hfound).1]
      rfl

/-- C3 witness: on a concrete store, a PUT with a different id is rejected
and a PUT with no id succeeds, replacing the mutable fields. -/
theorem C3_put_id_immutability_witness :
    (replace phonenumbersModel [sampleUser] "123456782"
      (Payload.mk (some "111111118") (some "B") (some "+972501234567") (some "Y"))
      = Except.error ApiError.validation ∧
     stateAfter [sampleUser] (replace phonenumbersModel [sampleUser] "123456782"
      (Payload.mk (some "111111118") (some "B") (some "+972501234567") (some "Y")))
      = [sampleUser]) ∧
    (replace phonenumbersModel [sampleUser] "123456782"
      (Payload.mk none (some "B") (some "+972501234567") (some "Y"))
      = Except.ok ([sampleUser].map (fun r => if r.id == "123456782" then
          applyPatch r (Payload.mk none (some "B") (some "+972501234567") (some "Y")) else r)) ∧
     findById ([sampleUser].map (fun r => if r.id == "123456782" then
          applyPatch r (Payload.mk none (some "B") (some "+972501234567") (some "Y")) else r))
        "123456782" = some (UserRecord.mk "123456782" "B" "+972501234567" "Y")) :=
  ⟨C3_put_id_immutability.1 String phonenumbersModel [sampleUser] "123456782" "111111118"
    (Payload.mk (some "111111118") (some "B") (some "+972501234567") (some "Y")) sampleUser
    rfl rfl (by decide),
   C3_put_id_immutability.2 String phonenumbersModel [sampleUser] "123456782"
    (Payload.mk none (some "B") (some "+972501234567") (some "Y")) sampleUser
    "B" "+972501234567" "Y" rfl (Or.inl rfl) rfl rfl rfl rfl rfl rfl⟩

/-- C9: a successful PartialUpdate on an existing record applies exactly
the supplied fields: the stored record keeps its id and every field absent
from the payload, takes the payload's value for every supplied field, and
all other ids resolve as before. -/
theorem C9_patch_applies_exactly_supplied :
    ∀ (α : Type) (lib : PhoneLib α) (st st2 : Store) (k : String) (body : Payload)
      (inst : UserRecord),
      findById st k = some inst →
      partial_update lib st k body = Except.ok st2 →
        findById st2 k = some (UserRecord.mk inst.id (body.name.getD inst.name)
          (body.phone.getD inst.phone) (body.address.getD inst.address)) ∧
        (∀ j, j ≠ k → findById st2 j = findById st j) := by
  intro α lib st st2 k body inst hfound hok
  have hst2 := partial_update_ok_eq hok
  subst hst2
  have hbeq : (inst.id == k) = true := beq_iff_eq.mpr (findById_eq_some hfound).1
  constructor
  · rw [findById_map_patch, hfound, Option.map_some', if_pos hbeq]
    rfl
  · intro j hj
    rw [findById_map_patch]
    cases hf : findById st j with
    | none => rfl
    | some r =>
      have hr := findById_eq_some hf
      rw [Option.map_some']
      have hcond : ¬ ((r.id == k) = true) := by
        intro hc
        exact hj ((beq_iff_eq.mp hc) ▸ hr.1.symm ▸ rfl)
      rw [if_neg hcond]

/-- C9 witness: patching only the address of a concrete record changes the
address and nothing else. -/
theorem C9_patch_applies_exactly_supplied_witness :
    findById [UserRecord.mk "123456782" "A" "+972501234567" "Y"] "123456782"
      = some (UserRecord.mk sampleUser.id ((none : Option String).getD sampleUser.name)
          ((none : Option String).getD sampleUser.phone)
          ((some "Y").getD sampleUser.address)) ∧
    (∀ j, j ≠ "123456782" →
      findById [UserRecord.mk "123456782" "A" "+972501234567" "Y"] j
        = findById [sampleUser] j) :=
  C9_patch_applies_exactly_supplied String phonenumbersModel [sampleUser]
    [UserRecord.mk "123456782" "A" "+972501234567" "Y"]
    "123456782" (Payload.mk none none none (some "Y")) sampleUser rfl rfl

/-- C8: Get, Replace, PartialUpdate and Delete on an id absent from the
store each fail with `NotFoundError` and leave the store unchanged; after
a successful Delete, a Get and a repeated Delete of the same id fail with
`NotFoundError`. -/
theorem C8_absent_not_found :
    (∀ (α : Type) (lib : PhoneLib α) (st : Store) (k : String) (body : Payload),
      findById st k = none →
        retrieve st k = Except.error ApiError.notFound ∧
        replace lib st k body = Except.error ApiError.notFound ∧
        partial_update lib st k body = Except.error ApiError.notFound ∧
        destroy st k = Except.error ApiError.notFound ∧
        stateAfter st (replace lib st k body) = st ∧
        stateAfter st (partial_update lib st k body) = st ∧
        stateAfter st (destroy st k) = st) ∧
    (∀ (st st2 : Store) (k : String), destroy st k = Except.ok st2 →
      retrieve st2 k = Except.error ApiError.notFound ∧
      destroy st2 k = Except.error ApiError.notFound) := by
  constructor
  · intro α lib st k body habs
    have hret : retrieve st k = Except.error ApiError.notFound := by
      unfold retrieve
      rw [habs]
    have hrep : replace lib st k body = Except.error ApiError.notFound := by
      unfold replace
      rw [habs]
    have hpat : partial_update lib st k body = Except.error ApiError.notFound := by
      unfold partial_update
      rw [habs]
    have hdel : destroy st k = Except.error ApiError.notFound := by
      unfold destroy
      rw [habs]
      rfl
    exact ⟨hret, hrep, hpat, hdel, by rw [hrep]; rfl, by rw [hpat]; rfl, by rw [hdel]; rfl⟩
  · intro st st2 k hdel
    have hst2 := destroy_ok_eq hdel
    subst hst2
    have habs2 : findById (st.filter (fun r => !(r.id == k))) k = none := by
      rw [findById_eq_none]
      intro r hr he
      have h2 := (List.mem_filter.mp hr).2
      rw [he, beq_self_eq_true] at h2
      exact Bool.noConfusion h2
    refine ⟨by unfold retrieve; rw [habs2], ?_⟩
    unfold destroy
    rw [habs2]
    rfl

/-- C8 witness: on the empty store every lookup-dependent operation is a
`NotFoundError`; deleting the only record then getting or re-deleting it
is a `NotFoundError`. -/
theorem C8_absent_not_found_witness :
    (retrieve ([] : Store) "123456782" = Except.error ApiError.notFound ∧
     replace phonenumbersModel ([] : Store) "123456782"
       (Payload.mk none none none none) = Except.error ApiError.notFound ∧
     partial_update phonenumbersModel ([] : Store) "123456782"
       (Payload.mk none none none none) = Except.error ApiError.notFound ∧
     destroy ([] : Store) "123456782" = Except.error ApiError.notFound ∧
     stateAfter ([] : Store) (replace phonenumbersModel ([] : Store) "123456782"
       (Payload.mk none none none none)) = [] ∧
     stateAfter ([] : Store) (partial_update phonenumbersModel ([] : Store) "123456782"
       (Payload.mk none none none none)) = [] ∧
     stateAfter ([] : Store) (destroy ([] : Store) "123456782") = []) ∧
    (retrieve ([] : Store) "123456782" = Except.error ApiError.notFound ∧
     destroy ([] : Store) "123456782" = Except.error ApiError.notFound) :=
  ⟨C8_absent_not_found.1 String phonenumbersModel [] "123456782"
     (Payload.mk none none none none) rfl,
   C8_absent_not_found.2 [sampleUser] [] "123456782" rfl⟩

/-- C6: primary-key uniqueness is an invariant preserved by Create,
Replace, PartialUpdate and Delete, and a Create whose id is already
present never succeeds: it fails — with the spec's `ConflictError` when
the body itself is well-formed — and the existing record is untouched. -/
theorem C6_unique_ids :
    (∀ (α : Type) (lib : PhoneLib α) (st st2 : Store) (body : UserRecord),
      UniqueIds st → create lib st body = Except.ok st2 → UniqueIds st2) ∧
    (∀ (α : Type) (lib : PhoneLib α) (st st2 : Store) (k : String) (body : Payload),
      UniqueIds st → replace lib st k body = Except.ok st2 → UniqueIds st2) ∧
    (∀ (α : Type) (lib : PhoneLib α) (st st2 : Store) (k : String) (body : Payload),
      UniqueIds st → partial_update lib st k body = Except.ok st2 → UniqueIds st2) ∧
    (∀ (st st2 : Store) (k : String),
      UniqueIds st → destroy st k = Except.ok st2 → UniqueIds st2) ∧
    (∀ (α : Type) (lib : PhoneLib α) (st : Store) (body : UserRecord) (r : UserRecord),
      findById st body.id = some r →
        (∀ st2, create lib st body ≠ Except.ok st2) ∧
        (recordOk lib body = true → create lib st body = Except.error ApiError.conflict) ∧
        stateAfter st (create lib st body) = st ∧
        findById (stateAfter st (create lib st body)) body.id = some r) := by
  refine ⟨?_, ?_, ?_, ?_, ?_⟩
  · intro α lib st st2 body hu hok
    unfold create at hok
    by_cases h1 : recordOk lib body = true
    · rw [if_neg (not_not_intro h1)] at hok
      by_cases h2 : (findById st body.id).isSome = true
      · rw [if_pos h2] at hok
        cases hok
      · rw [if_neg h2] at hok
        injection hok with h3
        subst h3
        unfold UniqueIds at hu ⊢
        rw [List.map_append, List.nodup_append]
        refine ⟨hu, List.nodup_singleton _, ?_⟩
        intro x hx hx2
        have habs : findById st body.id = none := by
          cases hf : findById st body.id with
          | none => rfl
          | some r2 => rw [hf] at h2; exact absurd rfl h2
        rw [findById_eq_none] at habs
        obtain ⟨r, hr, hrid⟩ := List.mem_map.mp hx
        simp only [List.map_cons, List.map_nil, List.mem_singleton] at hx2
        exact habs r hr (by rw [hrid, hx2])
    · rw [if_pos h1] at hok
      cases hok
  · intro α lib st st2 k body hu hok
    have hst2 := replace_ok_eq hok
    subst hst2
    unfold UniqueIds at hu ⊢
    rw [map_patch_ids]
    exact hu
  · intro α lib st st2 k body hu hok
    have hst2 := partial_update_ok_eq hok
    subst hst2
    unfold UniqueIds at hu ⊢
    rw [map_patch_ids]
    exact hu
  · intro st st2 k hu hok
    have hst2 := destroy_ok_eq hok
    subst hst2
    unfold UniqueIds at hu ⊢
    exact List.Nodup.sublist (List.Sublist.map _ (List.filter_sublist st)) hu
  · intro α lib st body r hfound
    have hsome : (findById st body.id).isSome = true := by rw [hfound]; rfl
    have hcre : ∀ e, create lib st body = Except.error e →
        (∀ st2, create lib st body ≠ Except.ok st2) ∧
        stateAfter st (create lib st body) = st ∧
        findById (stateAfter st (create lib st body)) body.id = some r := by
      intro e he
      refine ⟨fun st2 hc => ?_, by rw [he]; rfl, by rw [he]; exact hfound⟩
      rw [he] at hc
      cases hc
    have hcases : (¬ (recordOk lib body = true) ∧
        create lib st body = Except.error ApiError.validation) ∨
        create lib st body = Except.error ApiError.conflict := by
      unfold create
      split_ifs with h1
      · exact Or.inr rfl
      · exact Or.inl ⟨h1, rfl⟩
    rcases hcases with ⟨hro, hc⟩ | hc
    · exact ⟨(hcre _ hc).1, fun h2 => absurd h2 hro, (hcre _ hc).2.1, (hcre _ hc).2.2⟩
    · exact ⟨(hcre _ hc).1, fun _ => hc, (hcre _ hc).2.1, (hcre _ hc).2.2⟩

/-- C6 witness: creating a concrete valid record keeps ids unique, and
re-creating the same record conflicts and leaves the store untouched. -/
theorem C6_unique_ids_witness :
    UniqueIds [sampleUser] ∧
    ((∀ st2, create phonenumbersModel [sampleUser] sampleUser ≠ Except.ok st2) ∧
     (recordOk phonenumbersModel sampleUser = true →
       create phonenumbersModel [sampleUser] sampleUser = Except.error ApiError.conflict) ∧
     stateAfter [sampleUser] (create phonenumbersModel [sampleUser] sampleUser)
       = [sampleUser] ∧
     findById (stateAfter [sampleUser] (create phonenumbersModel [sampleUser] sampleUser))
       sampleUser.id = some sampleUser) :=
  ⟨C6_unique_ids.1 String phonenumbersModel [] [sampleUser] sampleUser
     List.nodup_nil rfl,
   C6_unique_ids.2.2.2.2 String phonenumbersModel [sampleUser] sampleUser sampleUser rfl⟩

/-- C10: Create fails with `ValidationError` — persisting nothing —
whenever the name is empty or over 100 characters, the address is empty or
over 255 characters, the id fails the ID validator, or the phone fails the
phone validator. -/
theorem C10_create_validation :
    ∀ (α : Type) (lib : PhoneLib α) (st : Store) (body : UserRecord),
      (body.name.isEmpty = true ∨ 100 < body.name.length ∨
       body.address.isEmpty = true ∨ 255 < body.address.length ∨
       idOk body.id = false ∨ phoneOk lib body.phone = false) →
        create lib st body = Except.error ApiError.validation ∧
        stateAfter st (create lib st body) = st := by
  intro α lib st body h
  have hro : ¬ (recordOk lib body = true) := by
    intro htrue
    simp only [recordOk, Bool.and_eq_true, idFieldOk, nameOk, phoneFieldOk, addressOk,
      decide_eq_true_iff, Bool.not_eq_true'] at htrue
    obtain ⟨⟨⟨⟨hid9, hidok⟩, hnmE, hnm100⟩, hph20, hphok⟩, hadE, had255⟩ := htrue
    rcases h with h | h | h | h | h | h
    · rw [h] at hnmE; cases hnmE
    · omega
    · rw [h] at hadE; cases hadE
    · omega
    · rw [h] at hidok; cases hidok
    · rw [h] at hphok; cases hphok
  have herr : create lib st body = Except.error ApiError.validation := by
    unfold create
    rw [if_pos hro]
  exact ⟨herr, by rw [herr]; rfl⟩

/-- C10 witness: creating a record with an empty name on the empty store
is rejected with `ValidationError` and stores nothing. -/
theorem C10_create_validation_witness :
    create phonenumbersModel [] (UserRecord.mk "123456782" "" "+972501234567" "X")
      = Except.error ApiError.validation ∧
    stateAfter [] (create phonenumbersModel []
      (UserRecord.mk "123456782" "" "+972501234567" "X")) = [] :=
  C10_create_validation String phonenumbersModel []
    (UserRecord.mk "123456782" "" "+972501234567" "X") (Or.inl rfl)
